import Mathlib

/- Verification development for the smart-ingredient receipt-scanning pipeline.

The definitions below are a shallow embedding of the pipeline's TypeScript
source: the ingredient detector (`smartIngredientDetector.ts`), the OCR
service's ingredient extraction and stub backends (`ocrService.ts`), and the
confirmation modal's validation/merge logic
(`IngredientConfirmationModal.tsx`).  JavaScript strings are modelled as
`String` manipulated through explicit `List Char` helpers (mirroring the
exact `includes`/`startsWith`/`endsWith`/`trim`/`split` semantics used by the
source), the regular expressions of the source are modelled by direct
scanners with the same backtracking behaviour, and JavaScript number
arithmetic is modelled exactly over `ℚ` (via kernel-computable `mkRat`
operations that are proved equal to the field operations of `ℚ`). -/

set_option maxRecDepth 16384

/-! ## JavaScript string primitives -/

/-- Whitespace class of JavaScript (the ASCII part of `\s` and `trim`). -/
def isJsSpace (c : Char) : Bool :=
  c = ' ' || c = '\t' || c = '\n' || c = '\r' || c = Char.ofNat 11 || c = Char.ofNat 12

/-- Substring containment on character lists (JS `String.prototype.includes`). -/
def containsSub (needle : List Char) : List Char → Bool
  | [] => needle.isEmpty
  | c :: cs => needle.isPrefixOf (c :: cs) || containsSub needle cs

/-- `hay.includes(needle)` of JavaScript. -/
def jsIncludes (hay needle : String) : Bool := containsSub needle.data hay.data

/-- `hay.startsWith(pre)` of JavaScript. -/
def jsStartsWith (hay pre : String) : Bool := pre.data.isPrefixOf hay.data

/-- `hay.endsWith(suf)` of JavaScript. -/
def jsEndsWith (hay suf : String) : Bool := suf.data.isSuffixOf hay.data

/-- `s.toLowerCase()` of JavaScript (ASCII case folding). -/
def jsToLower (s : String) : String := String.mk (s.data.map Char.toLower)

/-- `s.trim()` of JavaScript. -/
def jsTrim (s : String) : String :=
  String.mk ((((s.data.dropWhile isJsSpace).reverse).dropWhile isJsSpace).reverse)

/-- `s.length` of JavaScript (code points; all source data is ASCII). -/
def jsLength (s : String) : Nat := s.data.length

/-- Split a character list at every occurrence of the separator character,
keeping empty pieces, as JS `s.split(sep)` does. -/
def splitCharsOn (sep : Char) : List Char → List (List Char)
  | [] => [[]]
  | c :: rest =>
    match splitCharsOn sep rest with
    | [] => if c = sep then [[], []] else [[c]]
    | p :: ps => if c = sep then [] :: p :: ps else (c :: p) :: ps

/-- `text.split('\n')` of JavaScript. -/
def splitNewlines (s : String) : List String :=
  (splitCharsOn '\n' s.data).map String.mk

theorem containsSub_correct (needle hay : List Char) :
    containsSub needle hay = true ↔ needle <:+: hay := by
  induction hay with
  | nil =>
    simp [containsSub, List.isEmpty_iff, List.infix_nil]
  | cons c cs ih =>
    simp only [containsSub, Bool.or_eq_true, List.infix_cons_iff, ih,
      List.isPrefixOf_iff_prefix]

/-! ## Exact JavaScript number arithmetic over `ℚ`

The pipeline only adds, subtracts, multiplies and divides confidence scores;
we model those operations exactly over `ℚ`.  The standard `ℚ` operations of
the library are `@[irreducible]`, so concrete runs could not be evaluated by
`decide`; the operations below compute via `mkRat` and are proved equal to
the field operations. -/

def ratAdd (a b : ℚ) : ℚ := mkRat (a.num * b.den + b.num * a.den) (a.den * b.den)

def ratSub (a b : ℚ) : ℚ := mkRat (a.num * b.den - b.num * a.den) (a.den * b.den)

def ratMul (a b : ℚ) : ℚ := mkRat (a.num * b.num) (a.den * b.den)

def ratDiv (a b : ℚ) : ℚ := Rat.divInt (a.num * b.den) (a.den * b.num)

theorem den_cast_ne_zero (a : ℚ) : ((a.den : ℚ)) ≠ 0 := by exact_mod_cast a.den_nz

theorem num_eq_mul_den (a : ℚ) : (a.num : ℚ) = a * a.den :=
  (div_eq_iff (den_cast_ne_zero a)).mp (Rat.num_div_den a)

theorem ratAdd_eq (a b : ℚ) : ratAdd a b = a + b := by
  rw [ratAdd, Rat.mkRat_eq_div]
  push_cast
  rw [div_eq_iff (mul_ne_zero (den_cast_ne_zero a) (den_cast_ne_zero b)),
    num_eq_mul_den a, num_eq_mul_den b]
  ring

theorem ratSub_eq (a b : ℚ) : ratSub a b = a - b := by
  rw [ratSub, Rat.mkRat_eq_div]
  push_cast
  rw [div_eq_iff (mul_ne_zero (den_cast_ne_zero a) (den_cast_ne_zero b)),
    num_eq_mul_den a, num_eq_mul_den b]
  ring

theorem ratMul_eq (a b : ℚ) : ratMul a b = a * b := by
  rw [ratMul, Rat.mkRat_eq_div]
  push_cast
  rw [div_eq_iff (mul_ne_zero (den_cast_ne_zero a) (den_cast_ne_zero b)),
    num_eq_mul_den a, num_eq_mul_den b]
  ring

theorem ratDiv_eq (a b : ℚ) : ratDiv a b = a / b := by
  rw [ratDiv, Rat.divInt_eq_div]
  rcases eq_or_ne b 0 with rfl | hb
  · simp
  · have hbn : ((b.num : ℚ)) ≠ 0 := by exact_mod_cast Rat.num_ne_zero.mpr hb
    push_cast
    rw [div_eq_div_iff (mul_ne_zero (den_cast_ne_zero a) hbn) hb,
      num_eq_mul_den a, num_eq_mul_den b]
    ring

/-! ## The price pattern `\$?\d+\.\d{2}|\$\d+`

`analyzeReceiptText` extracts all matches of this pattern from the whole raw
text, and `calculateIngredientConfidence` tests a line against it.  The
scanner below reproduces the left-to-right, first-alternative-first,
greedy-with-backtracking semantics of the JavaScript regex engine. -/

def digitRunLength : List Char → Nat
  | [] => 0
  | c :: cs => if c.isDigit then digitRunLength cs + 1 else 0

/-- Length of the match of `\$?\d+\.\d{2}|\$\d+` anchored at the head of the
list, if any. -/
def matchPriceAt (cs : List Char) : Option Nat :=
  let dollarSkip : Nat := match cs with | '$' :: _ => 1 | _ => 0
  let afterDollar := cs.drop dollarSkip
  let n := digitRunLength afterDollar
  let alt1 : Option Nat :=
    if n = 0 then none
    else match afterDollar.drop n with
      | '.' :: d1 :: d2 :: _ =>
        if d1.isDigit && d2.isDigit then some (dollarSkip + n + 3) else none
      | _ => none
  match alt1 with
  | some len => some len
  | none =>
    match cs with
    | '$' :: rest =>
      let m := digitRunLength rest
      if m = 0 then none else some (1 + m)
    | _ => none

/-- Global scan collecting all price matches in order (JS `text.match(p) `
with the `g` flag). -/
def priceScanAux : Nat → List Char → List (List Char)
  | 0, _ => []
  | _ + 1, [] => []
  | fuel + 1, c :: cs =>
    match matchPriceAt (c :: cs) with
    | some len => (c :: cs).take len :: priceScanAux fuel ((c :: cs).drop len)
    | none => priceScanAux fuel cs

def priceMatches (s : String) : List String :=
  (priceScanAux s.data.length s.data).map String.mk

/-- JS `pricePattern.test(line)`. -/
def hasPriceMatch : List Char → Bool
  | [] => false
  | c :: cs => (matchPriceAt (c :: cs)).isSome || hasPriceMatch cs

/-! ## The date pattern `\d{1,2}\/\d{1,2}\/\d{2,4}|\d{4}-\d{2}-\d{2}|[A-Za-z]+ \d{1,2},? \d{4}` -/

def letterRunLength : List Char → Nat
  | [] => 0
  | c :: cs => if c.isAlpha then letterRunLength cs + 1 else 0

/-- `\d{1,2}` (greedy, with backtracking) followed by the separator; returns
how many digits were consumed. -/
def digits12Then (sep : Char) (cs : List Char) : Option Nat :=
  match cs with
  | a :: b :: rest =>
    if a.isDigit && b.isDigit then
      match rest with
      | c :: _ => if c = sep then some 2 else none
      | [] => none
    else if a.isDigit && b = sep then some 1
    else none
  | _ => none

def matchDateAlt1 (cs : List Char) : Option Nat :=
  match digits12Then '/' cs with
  | none => none
  | some n1 =>
    let rest1 := cs.drop (n1 + 1)
    match digits12Then '/' rest1 with
    | none => none
    | some n2 =>
      let rest2 := rest1.drop (n2 + 1)
      let n3 := min (digitRunLength rest2) 4
      if 2 ≤ n3 then some (n1 + 1 + n2 + 1 + n3) else none

def matchDateAlt2 (cs : List Char) : Option Nat :=
  match cs with
  | a :: b :: c :: d :: '-' :: e :: f :: '-' :: g :: h :: _ =>
    if a.isDigit && b.isDigit && c.isDigit && d.isDigit && e.isDigit && f.isDigit
        && g.isDigit && h.isDigit then some 10 else none
  | _ => none

/-- `,? \d{4}` (comma preferred, then the bare space form). -/
def commaSpaceYear (l : List Char) : Option Nat :=
  let withComma : Option Nat :=
    match l with
    | ',' :: ' ' :: r => if 4 ≤ digitRunLength r then some 6 else none
    | _ => none
  match withComma with
  | some t => some t
  | none =>
    match l with
    | ' ' :: r => if 4 ≤ digitRunLength r then some 5 else none
    | _ => none

/-- `\d{1,2},? \d{4}` with the greedy two-digit attempt first. -/
def digits12CommaSpaceYear (cs : List Char) : Option Nat :=
  match cs with
  | a :: b :: rest2 =>
    if a.isDigit && b.isDigit then
      match commaSpaceYear rest2 with
      | some t => some (2 + t)
      | none =>
        match commaSpaceYear (b :: rest2) with
        | some t => some (1 + t)
        | none => none
    else if a.isDigit then
      match commaSpaceYear (b :: rest2) with
      | some t => some (1 + t)
      | none => none
    else none
  | _ => none

def matchDateAlt3 (cs : List Char) : Option Nat :=
  let m := letterRunLength cs
  if m = 0 then none
  else
    match cs.drop m with
    | ' ' :: rest =>
      match digits12CommaSpaceYear rest with
      | some k => some (m + 1 + k)
      | none => none
    | _ => none

def matchDateAt (cs : List Char) : Option Nat :=
  match matchDateAlt1 cs with
  | some n => some n
  | none =>
    match matchDateAlt2 cs with
    | some n => some n
    | none => matchDateAlt3 cs

def dateScanAux : Nat → List Char → List (List Char)
  | 0, _ => []
  | _ + 1, [] => []
  | fuel + 1, c :: cs =>
    match matchDateAt (c :: cs) with
    | some len => (c :: cs).take len :: dateScanAux fuel ((c :: cs).drop len)
    | none => dateScanAux fuel cs

def dateMatches (s : String) : List String :=
  (dateScanAux s.data.length s.data).map String.mk

/-! ## The ingredient lexicon (`FOOD_INGREDIENTS`) and non-food vocabulary
(`NON_FOOD_WORDS`) of `smartIngredientDetector.ts`, transcribed verbatim
(including the duplicated entries of the source arrays, which matter for the
per-word confidence penalty). -/

def proteinFoods : List String := [
  "chicken", "beef", "pork", "lamb", "turkey", "duck", "fish", "salmon", "tuna", "cod", "halibut",
  "shrimp", "crab", "lobster", "scallops", "mussels", "oysters", "eggs", "egg whites", "egg yolks",
  "tofu", "tempeh", "seitan", "beans", "lentils", "chickpeas", "black beans", "kidney beans",
  "pinto beans", "navy beans", "edamame", "peanuts", "almonds", "walnuts", "cashews", "pecans",
  "pistachios", "hazelnuts", "macadamia nuts", "sunflower seeds", "pumpkin seeds", "sesame seeds",
  "chia seeds", "flax seeds", "hemp seeds", "quinoa", "barley", "oats", "wheat", "rice", "corn"]

def dairyFoods : List String := [
  "milk", "whole milk", "skim milk", "2% milk", "buttermilk", "cream", "heavy cream", "half and half",
  "sour cream", "yogurt", "greek yogurt", "plain yogurt", "vanilla yogurt", "cheese", "cheddar cheese",
  "mozzarella", "parmesan", "swiss cheese", "feta cheese", "goat cheese", "ricotta cheese", "cottage cheese",
  "cream cheese", "butter", "unsalted butter", "salted butter", "ghee", "margarine", "ice cream",
  "frozen yogurt", "sorbet", "gelato"]

def vegetableFoods : List String := [
  "tomato", "tomatoes", "cherry tomatoes", "roma tomatoes", "beefsteak tomatoes", "onion", "onions",
  "red onion", "yellow onion", "white onion", "green onion", "scallions", "shallots", "leeks",
  "garlic", "garlic cloves", "minced garlic", "garlic powder", "carrot", "carrots", "baby carrots",
  "potato", "potatoes", "russet potatoes", "red potatoes", "sweet potato", "yams", "lettuce",
  "romaine lettuce", "iceberg lettuce", "butter lettuce", "arugula", "spinach", "baby spinach",
  "kale", "swiss chard", "collard greens", "broccoli", "cauliflower", "brussels sprouts", "cabbage",
  "red cabbage", "bell pepper", "bell peppers", "red bell pepper", "green bell pepper", "yellow bell pepper",
  "jalapeño", "serrano pepper", "habanero pepper", "cucumber", "cucumbers", "english cucumber",
  "pickling cucumber", "celery", "celery stalks", "celery root", "mushrooms", "button mushrooms",
  "shiitake mushrooms", "portobello mushrooms", "oyster mushrooms", "zucchini", "yellow squash",
  "eggplant", "asparagus", "artichoke", "beets", "radish", "turnip", "parsnip", "rutabaga",
  "fennel", "bok choy", "napa cabbage", "daikon", "jicama", "kohlrabi", "okra", "snow peas",
  "sugar snap peas", "green beans", "wax beans", "lima beans", "corn", "sweet corn", "baby corn"]

def fruitFoods : List String := [
  "apple", "apples", "granny smith", "red delicious", "gala apples", "honeycrisp", "fuji apples",
  "banana", "bananas", "ripe bananas", "green bananas", "orange", "oranges", "navel oranges",
  "blood oranges", "mandarin oranges", "clementines", "tangerines", "lemon", "lemons", "lime",
  "limes", "grapefruit", "pink grapefruit", "white grapefruit", "strawberry", "strawberries",
  "blueberry", "blueberries", "raspberry", "raspberries", "blackberry", "blackberries",
  "cranberry", "cranberries", "cherry", "cherries", "peach", "peaches", "nectarine", "nectarines",
  "plum", "plums", "apricot", "apricots", "pear", "pears", "avocado", "avocados", "ripe avocado",
  "mango", "mangoes", "pineapple", "papaya", "kiwi", "kiwifruit", "passion fruit", "dragon fruit",
  "pomegranate", "figs", "dates", "raisins", "prunes", "coconut", "coconut milk", "coconut cream",
  "coconut flakes", "coconut water"]

def grainFoods : List String := [
  "flour", "wheat flour", "all-purpose flour", "bread flour", "cake flour", "whole wheat flour",
  "almond flour", "coconut flour", "rice flour", "corn flour", "buckwheat flour", "oat flour",
  "rice", "brown rice", "white rice", "wild rice", "basmati rice", "jasmine rice", "arborio rice",
  "pasta", "spaghetti", "penne", "macaroni", "fettuccine", "linguine", "ravioli", "lasagna",
  "bread", "sourdough", "whole grain bread", "white bread", "rye bread", "pita bread", "naan",
  "tortillas", "corn tortillas", "flour tortillas", "oats", "rolled oats", "steel cut oats",
  "instant oats", "quinoa", "barley", "bulgur", "couscous", "farro", "millet", "amaranth",
  "teff", "spelt", "kamut", "cornmeal", "polenta", "grits", "crackers", "breadcrumbs",
  "panko breadcrumbs", "croutons"]

def spiceFoods : List String := [
  "salt", "sea salt", "kosher salt", "table salt", "himalayan salt", "pepper", "black pepper",
  "white pepper", "cayenne pepper", "red pepper flakes", "paprika", "smoked paprika", "chili powder",
  "garlic powder", "onion powder", "ginger", "fresh ginger", "ground ginger", "cinnamon",
  "ground cinnamon", "cinnamon sticks", "nutmeg", "cloves", "allspice", "cardamom", "vanilla",
  "vanilla extract", "vanilla bean", "bay leaves", "star anise", "fennel seeds", "caraway seeds",
  "poppy seeds", "sesame seeds", "cumin", "coriander", "turmeric", "curry powder", "garam masala",
  "basil", "fresh basil", "dried basil", "oregano", "thyme", "rosemary", "sage", "parsley",
  "cilantro", "mint", "dill", "chives", "tarragon", "marjoram", "rosemary", "thyme", "sage",
  "oregano", "basil", "parsley", "cilantro", "mint", "dill", "chives", "tarragon", "marjoram"]

def condimentFoods : List String := [
  "olive oil", "extra virgin olive oil", "vegetable oil", "canola oil", "coconut oil", "sesame oil",
  "avocado oil", "walnut oil", "almond oil", "peanut oil", "sunflower oil", "grapeseed oil",
  "balsamic vinegar", "red wine vinegar", "white wine vinegar", "apple cider vinegar", "rice vinegar",
  "sherry vinegar", "champagne vinegar", "ketchup", "mustard", "dijon mustard", "yellow mustard",
  "whole grain mustard", "mayonnaise", "sriracha", "hot sauce", "soy sauce", "worcestershire sauce",
  "honey", "maple syrup", "agave nectar", "molasses", "tomato sauce", "marinara sauce", "pesto",
  "tahini", "hummus", "salsa", "guacamole", "ranch dressing", "italian dressing", "caesar dressing",
  "vinaigrette", "barbecue sauce", "teriyaki sauce", "hoisin sauce", "fish sauce", "oyster sauce"]

def beverageFoods : List String := [
  "water", "sparkling water", "seltzer", "club soda", "tonic water", "coffee", "espresso", "latte",
  "cappuccino", "americano", "tea", "green tea", "black tea", "herbal tea", "chai tea", "matcha",
  "juice", "orange juice", "apple juice", "cranberry juice", "grape juice", "pineapple juice",
  "coconut water", "soda", "cola", "ginger ale", "lemonade", "iced tea", "sports drink",
  "energy drink", "beer", "wine", "red wine", "white wine", "champagne", "spirits", "whiskey",
  "vodka", "rum", "gin", "tequila", "bourbon", "scotch", "cognac", "brandy", "liqueur"]

/-- `FOOD_INGREDIENTS`, with the object-key iteration order of the source. -/
def FOOD_INGREDIENTS : List (String × List String) := [
  ("protein", proteinFoods),
  ("dairy", dairyFoods),
  ("vegetable", vegetableFoods),
  ("fruit", fruitFoods),
  ("grain", grainFoods),
  ("spice", spiceFoods),
  ("condiment", condimentFoods),
  ("beverage", beverageFoods)]

/-- Every term of the lexicon, in iteration order. -/
def lexiconTerms : List String := (FOOD_INGREDIENTS.map Prod.snd).flatten

def NON_FOOD_WORDS : List String := [
  "store", "market", "grocery", "supermarket", "pharmacy", "dollar", "general", "target", "walmart",
  "costco", "sams", "kroger", "safeway", "whole foods", "trader joes", "aldi", "lidl",

  "receipt", "invoice", "bill", "total", "subtotal", "tax", "discount", "coupon", "sale",
  "price", "amount", "quantity", "qty", "item", "product", "sku", "barcode", "upc",

  "date", "time", "monday", "tuesday", "wednesday", "thursday", "friday", "saturday", "sunday",
  "january", "february", "march", "april", "may", "june", "july", "august", "september",
  "october", "november", "december", "am", "pm", "morning", "afternoon", "evening",

  "cash", "credit", "debit", "card", "visa", "mastercard", "amex", "american express",
  "paypal", "apple pay", "google pay", "venmo", "zelle", "check", "change", "refund",

  "return", "exchange", "policy", "warranty", "guarantee", "satisfaction", "customer service",
  "help", "support", "contact", "phone", "email", "website", "hours", "open", "closed",

  "bag", "receipt", "thank", "you", "visit", "again", "welcome", "come", "back", "soon",
  "have", "nice", "day", "good", "great", "excellent", "service", "quality", "fresh",
  "organic", "natural", "healthy", "diet", "low", "fat", "sugar", "free", "gluten", "free",

  "0", "1", "2", "3", "4", "5", "6", "7", "8", "9", "$", "%", "#", "@", "&", "*", "+", "=",
  "lb", "lbs", "oz", "kg", "g", "ml", "l", "pt", "qt", "gal", "dozen", "each", "per"]

/-! ## The ingredient matcher and scorer -/

/-- `IngredientMatch` of `smartIngredientDetector.ts`.  The category is kept
as the string key under which the term is listed (the source casts the key
with `as any`). -/
structure IngredientMatch where
  name : String
  confidence : ℚ
  context : String
  category : String
deriving DecidableEq, Repr

/-- `ReceiptAnalysis` of `smartIngredientDetector.ts`. -/
structure ReceiptAnalysis where
  ingredients : List IngredientMatch
  storeInfo : List String
  prices : List String
  dates : List String
  totalAmount : Option String
  confidence : ℚ
deriving DecidableEq, Repr

/-- `isNonFoodLine` of the source: a disjunction of anchored, case-insensitive
prefix patterns plus the leading date/time patterns. -/
def isNonFoodLine (line : String) : Bool :=
  let l := (jsToLower line).data
  ("total".data.isPrefixOf l) ||
  ("subtotal".data.isPrefixOf l) ||
  ("tax".data.isPrefixOf l) ||
  ("discount".data.isPrefixOf l) ||
  ("coupon".data.isPrefixOf l) ||
  ("sale".data.isPrefixOf l) ||
  ("receipt".data.isPrefixOf l) ||
  ("invoice".data.isPrefixOf l) ||
  ("thank you".data.isPrefixOf l) ||
  ("visit us".data.isPrefixOf l) ||
  ("store hours".data.isPrefixOf l) ||
  ("phone".data.isPrefixOf l) ||
  ("website".data.isPrefixOf l) ||
  ("email".data.isPrefixOf l) ||
  (matchDateAlt1 l).isSome ||
  (match digits12Then ':' l with
   | some n => 2 ≤ digitRunLength (l.drop (n + 1))
   | none => false) ||
  ("qty".data.isPrefixOf l) ||
  ("item".data.isPrefixOf l) ||
  ("sku".data.isPrefixOf l) ||
  ("upc".data.isPrefixOf l) ||
  ("barcode".data.isPrefixOf l)

/-- `isStoreInfo` of the source: case-insensitive substring tests. -/
def isStoreInfo (line : String) : Bool :=
  let l := jsToLower line
  jsIncludes l "store" || jsIncludes l "market" || jsIncludes l "grocery" ||
  jsIncludes l "supermarket" || jsIncludes l "pharmacy" || jsIncludes l "dollar" ||
  jsIncludes l "general" || jsIncludes l "target" || jsIncludes l "walmart" ||
  jsIncludes l "costco" || jsIncludes l "sams" || jsIncludes l "kroger" ||
  jsIncludes l "safeway" || jsIncludes l "whole foods" || jsIncludes l "trader joes" ||
  jsIncludes l "aldi" || jsIncludes l "lidl"

/-- The exact-word test of `calculateIngredientConfidence`: the lowercased
term with a space on each side, or at the start/end of the line with one
adjacent space. -/
def wholeWordHit (foodLower lineLower : String) : Bool :=
  jsIncludes lineLower (" " ++ foodLower ++ " ") ||
  jsStartsWith lineLower (foodLower ++ " ") ||
  jsEndsWith lineLower (" " ++ foodLower)

/-- `calculateIngredientConfidence` of the source, with JS numbers modelled
exactly over `ℚ`. -/
def calculateIngredientConfidence (food line category : String) : ℚ :=
  let confidence : ℚ := mkRat 1 2
  let lineLower := jsToLower line
  let foodLower := jsToLower food
  let confidence :=
    if wholeWordHit foodLower lineLower then ratAdd confidence (mkRat 3 10) else confidence
  let confidence :=
    if hasPriceMatch line.data then confidence else ratAdd confidence (mkRat 2 10)
  let nonFoodWordsInLine := NON_FOOD_WORDS.filter (fun word => jsIncludes lineLower (jsToLower word))
  let confidence := ratSub confidence (ratMul (nonFoodWordsInLine.length : ℚ) (mkRat 1 10))
  let confidence :=
    if category ∈ (["vegetable", "fruit", "protein", "dairy"] : List String) then
      ratAdd confidence (mkRat 1 10)
    else confidence
  max 0 (min 1 confidence)

/-- `findIngredientsInLine` of the source: every lexicon term that is a
substring of the lowercased line yields a match, kept when its confidence
exceeds 0.3. -/
def findIngredientsInLine (line lineLower : String) : List IngredientMatch :=
  FOOD_INGREDIENTS.flatMap (fun catFoods =>
    catFoods.2.filterMap (fun food =>
      let foodLower := jsToLower food
      if jsIncludes lineLower foodLower then
        let confidence := calculateIngredientConfidence food line catFoods.1
        if mkRat 3 10 < confidence then
          some { name := food, confidence := confidence, context := line,
                 category := catFoods.1 }
        else none
      else none))

/-- One step of the `Map`-based deduplication of `removeDuplicateIngredients`:
`Map.set` updates an existing key in place and appends a new key. -/
def insertMatch (m : IngredientMatch) : List (String × IngredientMatch) →
    List (String × IngredientMatch)
  | [] => [(jsToLower m.name, m)]
  | (k, v) :: rest =>
    if k = jsToLower m.name then
      if v.confidence < m.confidence then (k, m) :: rest else (k, v) :: rest
    else (k, v) :: insertMatch m rest

/-- `removeDuplicateIngredients` of the source. -/
def removeDuplicateIngredients (ingredients : List IngredientMatch) : List IngredientMatch :=
  (ingredients.foldl (fun seen i => insertMatch i seen) []).map Prod.snd

/-- Stable insertion step for the descending-confidence sort. -/
def insertByConf (m : IngredientMatch) : List IngredientMatch → List IngredientMatch
  | [] => [m]
  | x :: xs => if x.confidence ≤ m.confidence then m :: x :: xs else x :: insertByConf m xs

/-- The stable sort by confidence descending used on the deduplicated
matches. -/
def sortByConfDesc (l : List IngredientMatch) : List IngredientMatch :=
  l.foldr insertByConf []

/-- `calculateOverallConfidence` of the source. -/
def calculateOverallConfidence (ingredients : List IngredientMatch) (text : String) : ℚ :=
  if ingredients.length = 0 then 0
  else
    let avgConfidence :=
      ratDiv (ingredients.foldl (fun sum ing => ratAdd sum ing.confidence) 0)
        (ingredients.length : ℚ)
    let textLength := jsLength text
    let ingredientCount := ingredients.length
    let confidence := avgConfidence
    let confidence :=
      if 100 < textLength ∧ 3 < ingredientCount then ratAdd confidence (mkRat 1 10)
      else confidence
    let confidence :=
      if 10 < ingredientCount then ratAdd confidence (mkRat 1 10) else confidence
    min 1 confidence

/-- The per-line loop of `analyzeReceiptText`: noise lines contribute their
text to `storeInfo` when they also look like store information, all other
lines are scanned for ingredients. -/
def processLines : List String → List IngredientMatch × List String
  | [] => ([], [])
  | line :: rest =>
    let acc := processLines rest
    let lineLower := jsToLower line
    if isNonFoodLine lineLower then
      if isStoreInfo lineLower then (acc.1, line :: acc.2) else acc
    else
      (findIngredientsInLine line lineLower ++ acc.1, acc.2)

/-- The line preprocessing of `analyzeReceiptText`. -/
def linesOf (text : String) : List String :=
  ((splitNewlines text).map jsTrim).filter (fun line => 0 < jsLength line)

/-- Parse a price match (`$` optional, two decimals optional) into cents. -/
def digitsToNat : List Char → Nat → Nat
  | [], acc => acc
  | c :: cs, acc => digitsToNat cs (acc * 10 + (c.toNat - 48))

def priceToCents (s : String) : Nat :=
  let stripped := match s.data with | '$' :: rest => rest | l => l
  let intPart := stripped.takeWhile (fun c => c ≠ '.')
  let fracPart := (stripped.dropWhile (fun c => c ≠ '.')).drop 1
  digitsToNat intPart 0 * 100 + digitsToNat fracPart 0

def centsToPriceString (cents : Nat) : String :=
  let frac := cents % 100
  Nat.repr (cents / 100) ++ "." ++ (if frac < 10 then "0" else "") ++ Nat.repr frac

/-- The `totalAmount` heuristic: the numerically largest extracted price,
reformatted with two decimals. -/
def totalAmountOf (prices : List String) : Option String :=
  if prices.isEmpty then none
  else some ("$" ++ centsToPriceString ((prices.map priceToCents).foldl max 0))

/-- The deduplicated, sorted ingredient list of one pipeline run. -/
def sortedIngredientsOf (text : String) : List IngredientMatch :=
  sortByConfDesc (removeDuplicateIngredients (processLines (linesOf text)).1)

/-- `analyzeReceiptText` of the source. -/
def analyzeReceiptText (text : String) : ReceiptAnalysis :=
  { ingredients := sortedIngredientsOf text
    storeInfo := (processLines (linesOf text)).2
    prices := priceMatches text
    dates := dateMatches text
    totalAmount := totalAmountOf (priceMatches text)
    confidence := calculateOverallConfidence (sortedIngredientsOf text) text }

/-! ## The OCR service (`ocrService.ts`): keyword/list ingredient extraction
and the deterministic stub backends -/

def ingredientKeywords : List String := [
  "flour", "sugar", "salt", "pepper", "oil", "butter", "milk", "eggs", "cheese",
  "tomato", "onion", "garlic", "carrot", "potato", "chicken", "beef", "pork",
  "rice", "pasta", "bread", "lettuce", "spinach", "broccoli", "pepper",
  "lemon", "lime", "orange", "apple", "banana", "strawberry", "blueberry",
  "vanilla", "cinnamon", "ginger", "basil", "oregano", "thyme", "rosemary",
  "parsley", "cilantro", "mint", "chili", "paprika", "cumin", "coriander",
  "nutmeg", "cloves", "bay leaves", "sage", "dill", "tarragon", "marjoram",
  "honey", "maple syrup", "vinegar", "soy sauce", "worcestershire sauce",
  "ketchup", "mustard", "mayonnaise", "sour cream", "yogurt", "cream",
  "almonds", "walnuts", "pecans", "cashews", "peanuts", "sesame seeds",
  "sunflower seeds", "pumpkin seeds", "chia seeds", "flax seeds",
  "quinoa", "barley", "oats", "wheat", "corn", "beans", "lentils",
  "chickpeas", "black beans", "kidney beans", "pinto beans", "navy beans",
  "tofu", "tempeh", "seitan", "mushrooms", "bell peppers", "jalapeño",
  "avocado", "cucumber", "celery", "radish", "beet", "turnip", "parsnip",
  "sweet potato", "yam", "squash", "zucchini", "eggplant", "asparagus",
  "artichoke", "cauliflower", "cabbage", "kale", "arugula", "watercress",
  "endive", "fennel", "leek", "shallot", "scallion", "chive", "ginger",
  "turmeric", "cardamom", "star anise", "fennel seeds", "caraway seeds",
  "poppy seeds", "sesame oil", "olive oil", "coconut oil", "vegetable oil",
  "canola oil", "sunflower oil", "grapeseed oil", "avocado oil", "walnut oil",
  "almond oil", "peanut oil", "corn oil", "soybean oil", "palm oil",
  "balsamic vinegar", "red wine vinegar", "white wine vinegar", "apple cider vinegar",
  "rice vinegar", "sherry vinegar", "champagne vinegar", "malt vinegar",
  "distilled vinegar", "white vinegar", "coconut milk", "almond milk",
  "soy milk", "oat milk", "rice milk", "hemp milk", "cashew milk",
  "macadamia milk", "flax milk", "quinoa milk", "spelt milk", "kamut milk",
  "amaranth milk", "teff milk", "buckwheat milk", "millet milk", "sorghum milk"]

/-- `word.charAt(0).toUpperCase() + word.slice(1)` of the source. -/
def capitalizeWord (w : String) : String :=
  match w.data with
  | [] => ""
  | c :: cs => String.mk (c.toUpper :: cs)

/-- Capitalize the first letter of each space-separated word. -/
def capitalizeWords (s : String) : String :=
  String.intercalate " " ((splitCharsOn ' ' s.data).map (fun w => capitalizeWord (String.mk w)))

/-- The delimiter class `[,;•\n]` of the explicit-list split. -/
def isIngredientDelim (c : Char) : Bool :=
  c = ',' || c = ';' || c = '•' || c = '\n'

/-- Split a character list at every character satisfying `p`, keeping empty
pieces (JS `String.prototype.split` with a character-class regex). -/
def splitCharsWhen (p : Char → Bool) : List Char → List (List Char)
  | [] => [[]]
  | c :: rest =>
    match splitCharsWhen p rest with
    | [] => if p c then [[], []] else [[c]]
    | piece :: ps => if p c then [] :: piece :: ps else (c :: piece) :: ps

/-- `replace(/^\d+\.?\s*/, '')` of the source. -/
def stripLeadingOrdinal (cs : List Char) : List Char :=
  let d := digitRunLength cs
  if d = 0 then cs
  else
    let after := cs.drop d
    let after2 := match after with | '.' :: r => r | _ => after
    after2.dropWhile isJsSpace

/-- `replace(/\([^)]*\)/g, '')` of the source: drop every parenthesized
stretch up to the first closing parenthesis. -/
def stripParensAux : Nat → List Char → List Char
  | 0, cs => cs
  | _ + 1, [] => []
  | fuel + 1, c :: rest =>
    if c = '(' then
      match rest.dropWhile (fun d => d ≠ ')') with
      | [] => c :: stripParensAux fuel rest
      | _ :: tailAfter => stripParensAux fuel tailAfter
    else c :: stripParensAux fuel rest

def stripParensAll (cs : List Char) : List Char := stripParensAux cs.length cs

/-- The per-item cleanup of the explicit-list scan:
`item.trim().replace(/^\d+\.?\s*/, '').replace(/\([^)]*\)/g, '').trim()`. -/
def cleanupListItem (cs : List Char) : String :=
  jsTrim (String.mk (stripParensAll (stripLeadingOrdinal (jsTrim (String.mk cs)).data)))

/-- `[:\s]+` followed by the lazily matched group of
`/ingredients?[:\s]+(.*?)(?:\n|$)/i`: after the separator run the group
extends to the first newline or the end of the text. -/
def sepThenGroup (cs : List Char) : Option (List Char) :=
  let k := (cs.takeWhile (fun c => c = ':' || isJsSpace c)).length
  if k = 0 then none else some ((cs.drop k).takeWhile (fun c => c ≠ '\n'))

/-- The match of `/ingredients?[:\s]+(.*?)(?:\n|$)/i` anchored at the head of
the (already lowercased) text; `s?` is greedy but backtracks when no
separator follows the `s`. -/
def matchIngredientsAt (cs : List Char) : Option (List Char) :=
  if "ingredient".data.isPrefixOf cs then
    let rest := cs.drop 10
    match rest with
    | 's' :: rest2 =>
      (match sepThenGroup rest2 with
       | some g => some g
       | none => sepThenGroup rest)
    | _ => sepThenGroup rest
  else none

def ingredientsGroupAux : Nat → List Char → Option (List Char)
  | 0, _ => none
  | _ + 1, [] => none
  | fuel + 1, c :: cs =>
    match matchIngredientsAt (c :: cs) with
    | some g => some g
    | none => ingredientsGroupAux fuel cs

/-- First match of the explicit ingredient-list pattern in the lowercased
text. -/
def ingredientsGroupOf (lowerText : String) : Option (List Char) :=
  ingredientsGroupAux lowerText.data.length lowerText.data

/-- One keyword step of the keyword scan of `extractIngredients`. -/
def pushKeyword (lowerText : String) (ingredients : List String) (keyword : String) :
    List String :=
  if jsIncludes lowerText (jsToLower keyword) then
    let capitalizedKeyword := capitalizeWords keyword
    if capitalizedKeyword ∈ ingredients then ingredients
    else ingredients ++ [capitalizedKeyword]
  else ingredients

/-- One item step of the explicit-list scan of `extractIngredients`. -/
def pushListItem (ingredients : List String) (item : String) : List String :=
  if item ∈ ingredients then ingredients else ingredients ++ [item]

/-- `extractIngredients` of `ocrService.ts`: the keyword scan (pushing
capitalized keywords) followed by the explicit ingredient-list scan over the
lowercased text (pushing cleaned list items not already present). -/
def extractIngredients (text : String) : List String :=
  let lowerText := jsToLower text
  let ingredients := ingredientKeywords.foldl (pushKeyword lowerText) []
  match ingredientsGroupOf lowerText with
  | none => ingredients
  | some group =>
    let listItems := ((splitCharsWhen isIngredientDelim group).map cleanupListItem).filter
      (fun item => 2 < jsLength item)
    listItems.foldl pushListItem ingredients

/-- `OCRResult` of `ocrService.ts`. -/
structure OCRResult where
  text : String
  confidence : ℚ
  ingredients : List String
  smartAnalysis : Option ReceiptAnalysis
deriving DecidableEq, Repr

/-- The wall clock as seen by `callSimpleOCR`: the locale-formatted date and
time strings interpolated into the simulated receipt text. -/
structure WallClock where
  dateString : String
  timeString : String
deriving DecidableEq, Repr

/-- The simulated receipt text of `callSimpleOCR`, a template literal that
interpolates the current date and time. -/
def simpleOCRText (clock : WallClock) : String :=
  "\n    GROCERY STORE RECEIPT\n    ====================\n    \n    Date: "
    ++ clock.dateString
    ++ "\n    Time: "
    ++ clock.timeString
    ++ "\n    \n    Items:\n    - Organic Flour $3.99\n    - Sugar $2.49\n    - Salt $1.29\n    - Olive Oil $5.99\n    - Fresh Tomatoes $4.99\n    - Onions $2.99\n    - Garlic $1.99\n    - Basil $2.99\n    - Mozzarella Cheese $6.99\n    - Parmesan Cheese $4.99\n    \n    Subtotal: $38.70\n    Tax: $3.10\n    Total: $41.80\n    \n    Thank you for shopping with us!\n  "

/-- `extractTextFromReceipt` for the `simple` ("fixed-sample") method: run
`callSimpleOCR` (base confidence 0.6) and the smart analysis. -/
def extractTextFromReceiptSimple (imageUri : String) (clock : WallClock) : OCRResult :=
  let extractedText := simpleOCRText clock
  let confidence : ℚ := mkRat 6 10
  let smartAnalysis := analyzeReceiptText extractedText
  { text := extractedText
    confidence := max confidence smartAnalysis.confidence
    ingredients := smartAnalysis.ingredients.map (fun ing => ing.name)
    smartAnalysis := some smartAnalysis }

/-- The fixed receipt text of `extractTextFromReceiptMock`. -/
def mockReceiptText : String :=
  "\n    GROCERY STORE RECEIPT\n    ====================\n    \n    Ingredients:\n    - Organic Flour\n    - Sugar\n    - Salt\n    - Olive Oil\n    - Fresh Tomatoes\n    - Onions\n    - Garlic\n    - Basil\n    - Mozzarella Cheese\n    - Parmesan Cheese\n    \n    Total: $25.99\n  "

/-- `extractTextFromReceiptMock` (the `mock`/"deterministic-stub" method);
the wall clock is passed to record that the result does not depend on it. -/
def extractTextFromReceiptMock (imageUri : String) (clock : WallClock) : OCRResult :=
  { text := mockReceiptText
    confidence := mkRat 85 100
    ingredients := extractIngredients mockReceiptText
    smartAnalysis := none }

/-! ## The confirmation modal (`IngredientConfirmationModal.tsx`):
initialization, validation, unit normalization and duplicate merging -/

inductive IngredientSource where
  | detected
  | manual
deriving DecidableEq, Repr

/-- `IngredientItem` of the modal. -/
structure IngredientItem where
  id : String
  name : String
  quantity : ℚ
  unit : String
  isSelected : Bool
  source : IngredientSource
  confidence : Option ℚ
deriving DecidableEq, Repr

/-- A detected ingredient handed to the modal. -/
structure DetectedIngredient where
  name : String
  confidence : Option ℚ
deriving DecidableEq, Repr

/-- The default of the `confidenceThreshold` prop. -/
def defaultConfidenceThreshold : ℚ := mkRat 7 10

/-- The initialization effect of the modal: each detected ingredient becomes
an item with quantity 1, unit `ea`, source `detected`, selected exactly when
its confidence (0 when absent) reaches the threshold. -/
def initialIngredientsAux (threshold : ℚ) : Nat → List DetectedIngredient → List IngredientItem
  | _, [] => []
  | index, ingredient :: rest =>
    { id := "detected-" ++ Nat.repr index
      name := ingredient.name
      quantity := 1
      unit := "ea"
      isSelected := decide (threshold ≤ ingredient.confidence.getD 0)
      source := IngredientSource.detected
      confidence := ingredient.confidence } :: initialIngredientsAux threshold (index + 1) rest

def initialIngredients (detectedIngredients : List DetectedIngredient)
    (confidenceThreshold : ℚ := defaultConfidenceThreshold) : List IngredientItem :=
  initialIngredientsAux confidenceThreshold 0 detectedIngredients

/-- The synonym table of `normalizeUnit`. -/
def unitMap : List (String × String) := [
  ("each", "ea"),
  ("piece", "ea"),
  ("pound", "lb"),
  ("pounds", "lb"),
  ("ounce", "oz"),
  ("ounces", "oz"),
  ("gram", "g"),
  ("grams", "g"),
  ("kilogram", "kg"),
  ("kilograms", "kg"),
  ("milliliter", "ml"),
  ("milliliters", "ml"),
  ("liter", "L"),
  ("liters", "L")]

/-- `normalizeUnit` of the modal: empty input falls back to `ea`; otherwise
the lowercased unit is looked up in the table and an unrecognized unit is
returned unchanged (`unitMap[...] || unit`). -/
def normalizeUnit (unit : String) : String :=
  if unit = "" then "ea"
  else
    match unitMap.lookup (jsToLower unit) with
    | some mapped => mapped
    | none => unit

/-- The indexed validation loop of `validateAndSave`. -/
def collectErrors : Nat → List IngredientItem → List String
  | _, [] => []
  | index, ingredient :: rest =>
    (if jsTrim ingredient.name = "" then
      ["Item " ++ Nat.repr (index + 1) ++ ": Name is required"] else [])
    ++ (if ingredient.quantity ≤ 0 then
      ["Item " ++ Nat.repr (index + 1) ++ ": Quantity must be greater than 0"] else [])
    ++ collectErrors (index + 1) rest

/-- The merge key `${name.toLowerCase().trim()}_${unit}`. -/
def mergeKey (i : IngredientItem) : String := jsTrim (jsToLower i.name) ++ "_" ++ i.unit

/-- One `Map.set`-style step of `mergeDuplicates`: an existing key keeps its
position, quantities are summed, and the confidence is raised to the maximum
only when both confidences are truthy (present and nonzero). -/
def insertItem (i : IngredientItem) : List (String × IngredientItem) →
    List (String × IngredientItem)
  | [] => [(mergeKey i, i)]
  | (k, existing) :: rest =>
    if k = mergeKey i then
      (k, { existing with
              quantity := ratAdd existing.quantity i.quantity
              confidence :=
                if i.confidence.getD 0 ≠ 0 ∧ existing.confidence.getD 0 ≠ 0 then
                  some (max (existing.confidence.getD 0) (i.confidence.getD 0))
                else existing.confidence }) :: rest
    else (k, existing) :: insertItem i rest

/-- `mergeDuplicates` of the modal. -/
def mergeDuplicates (ingredients : List IngredientItem) : List IngredientItem :=
  (ingredients.foldl (fun merged i => insertItem i merged) []).map Prod.snd

/-- Outcome of `validateAndSave`: either one of the two alert paths (no saved
output) or a call of the `onSave` callback with the merged list. -/
inductive SaveResult where
  | noSelection
  | validationError (errors : List String)
  | saved (ingredients : List IngredientItem)
deriving DecidableEq, Repr

/-- `validateAndSave` of the modal. -/
def validateAndSave (ingredients : List IngredientItem) : SaveResult :=
  let selectedIngredients := ingredients.filter (fun i => i.isSelected)
  if selectedIngredients.length = 0 then SaveResult.noSelection
  else
    let errors := collectErrors 0 selectedIngredients
    if 0 < errors.length then SaveResult.validationError errors
    else
      let normalizedIngredients := selectedIngredients.map
        (fun ingredient => { ingredient with unit := normalizeUnit ingredient.unit })
      SaveResult.saved (mergeDuplicates normalizedIngredients)

/-! ## Settled claims -/

/-- C1 (counterexample): on the line `"Organic Spinach - 1 bag - $2.99"` the
computed confidence for "spinach" is 0.2 — not ≥ 0.8 — because seven
non-food vocabulary entries are substrings of the line, so the match is
discarded and the analysis emits no ingredient at all. -/
theorem C1_counterexample :
    (analyzeReceiptText "Organic Spinach - 1 bag - $2.99").ingredients = []
    ∧ calculateIngredientConfidence "spinach" "Organic Spinach - 1 bag - $2.99" "vegetable"
        = mkRat 1 5 :=
  ⟨by decide, by decide⟩

/-- C1 (amended): on `"Organic Spinach - 1 bag - $2.99"` the matcher computes
confidence 0.2 for "spinach" (base 0.5, +0.3 whole word, no +0.2 since a
price is present, −0.7 for the seven non-food vocabulary hits "bag",
"organic", "1", "2", "9", "$", "g", +0.1 vegetable category), which does not
exceed the 0.3 discard threshold, so no match is emitted; the whole-text
price extraction still yields `$2.99`. -/
theorem C1_amended_example1 :
    calculateIngredientConfidence "spinach" "Organic Spinach - 1 bag - $2.99" "vegetable"
        = mkRat 1 5
    ∧ (NON_FOOD_WORDS.filter (fun word =>
        jsIncludes (jsToLower "Organic Spinach - 1 bag - $2.99") (jsToLower word)))
        = ["bag", "organic", "1", "2", "9", "$", "g"]
    ∧ ¬ mkRat 3 10 < calculateIngredientConfidence "spinach"
        "Organic Spinach - 1 bag - $2.99" "vegetable"
    ∧ findIngredientsInLine "Organic Spinach - 1 bag - $2.99"
        (jsToLower "Organic Spinach - 1 bag - $2.99") = []
    ∧ (analyzeReceiptText "Organic Spinach - 1 bag - $2.99").prices = ["$2.99"] :=
  ⟨by decide, by decide, by decide, by decide, by decide⟩

/-- C2 (counterexample): "spinach" occurs as a whole word in the price-free
line `"tax qty spinach"`, yet its confidence is 0.8, not 1.0, because the
non-food vocabulary entries "tax", "qty" and "qt" are substrings of the
line. -/
theorem C2_counterexample :
    "spinach" ∈ lexiconTerms
    ∧ wholeWordHit (jsToLower "spinach") (jsToLower "tax qty spinach") = true
    ∧ hasPriceMatch ("tax qty spinach").data = false
    ∧ calculateIngredientConfidence "spinach" "tax qty spinach" "vegetable" = mkRat 4 5
    ∧ mkRat 4 5 ≠ 1 :=
  ⟨by decide, by decide, by decide, by decide, by decide⟩

/-- C2 (amended): for every lexicon term and line, if the term occurs as a
whole word (in the code's sense: the lowercased term bordered by a space on
the appropriate sides), the line has no price match, and additionally no
non-food vocabulary word is a substring of the lowercased line, then the
computed confidence is exactly 1 after clamping. -/
theorem C2_whole_word_confidence (t L cat : String)
    (hterm : t ∈ lexiconTerms)
    (hword : wholeWordHit (jsToLower t) (jsToLower L) = true)
    (hprice : hasPriceMatch L.data = false)
    (hclean : NON_FOOD_WORDS.filter (fun word => jsIncludes (jsToLower L) (jsToLower word)) = []) :
    calculateIngredientConfidence t L cat = 1 := by
  simp only [calculateIngredientConfidence, hword, hprice, hclean, if_true,
    Bool.false_eq_true, if_false, List.length_nil, Nat.cast_zero]
  split_ifs <;>
    simp only [ratAdd_eq, ratSub_eq, ratMul_eq, Rat.mkRat_eq_div] <;>
    norm_num [min_def, max_def]

/-- C2 (witness): the instantiation at term "spinach", line
`"spinach tomato"`, category "vegetable". -/
theorem C2_witness :
    calculateIngredientConfidence "spinach" "spinach tomato" "vegetable" = 1 :=
  C2_whole_word_confidence "spinach" "spinach tomato" "vegetable"
    (by decide) (by decide) (by decide) (by decide)

/-- C4 (amended): the deterministic-stub (`mock`) OCR path yields the same
result regardless of the wall clock, for any fixed image input. -/
theorem C4_deterministic_stub (imageUri : String) (clock1 clock2 : WallClock) :
    extractTextFromReceiptMock imageUri clock1 = extractTextFromReceiptMock imageUri clock2 :=
  rfl

/-- C4 (counterexample): the fixed-sample (`simple`) OCR path interpolates
the current date and time into its simulated text, so two invocations at
different wall-clock readings differ on the same image. -/
theorem C4_counterexample :
    extractTextFromReceiptSimple "receipt.jpg" ⟨"1/1/2025", "10:00:00 AM"⟩
      ≠ extractTextFromReceiptSimple "receipt.jpg" ⟨"1/2/2025", "10:00:00 AM"⟩ :=
  fun h => absurd (congrArg OCRResult.text h) (by decide)

/-- C5 (counterexample): `normalizeUnit` returns an unrecognized nonempty
unit unchanged rather than defaulting it to `ea`: "gallon" is not in the
synonym table and comes back as "gallon". -/
theorem C5_counterexample :
    unitMap.lookup "gallon" = none
    ∧ normalizeUnit "gallon" = "gallon"
    ∧ normalizeUnit "gallon" ≠ "ea" :=
  ⟨by decide, by decide, by decide⟩

/-- C5 (amended): `normalizeUnit` maps each/piece→ea, pound(s)→lb,
ounce(s)→oz, gram(s)→g, kilogram(s)→kg, milliliter(s)→ml, liter(s)→L
case-insensitively; the empty unit defaults to `ea`; an unrecognized
nonempty unit is returned unchanged. -/
theorem C5_unit_normalization :
    (∀ u : String, jsToLower u = "each" ∨ jsToLower u = "piece" → normalizeUnit u = "ea")
    ∧ (∀ u : String, jsToLower u = "pound" ∨ jsToLower u = "pounds" → normalizeUnit u = "lb")
    ∧ (∀ u : String, jsToLower u = "ounce" ∨ jsToLower u = "ounces" → normalizeUnit u = "oz")
    ∧ (∀ u : String, jsToLower u = "gram" ∨ jsToLower u = "grams" → normalizeUnit u = "g")
    ∧ (∀ u : String, jsToLower u = "kilogram" ∨ jsToLower u = "kilograms" →
        normalizeUnit u = "kg")
    ∧ (∀ u : String, jsToLower u = "milliliter" ∨ jsToLower u = "milliliters" →
        normalizeUnit u = "ml")
    ∧ (∀ u : String, jsToLower u = "liter" ∨ jsToLower u = "liters" → normalizeUnit u = "L")
    ∧ normalizeUnit "" = "ea"
    ∧ (∀ u : String, u ≠ "" → unitMap.lookup (jsToLower u) = none → normalizeUnit u = u) := by
  have syn : ∀ (u k v : String), u ≠ "" → jsToLower u = k → unitMap.lookup k = some v →
      normalizeUnit u = v := by
    intro u k v hne h hk
    unfold normalizeUnit
    rw [if_neg hne, h, hk]
  have nonempty_of_toLower : ∀ (u k : String), k ≠ "" → jsToLower u = k → u ≠ "" := by
    intro u k hk h he
    subst he
    exact hk (by rw [← h]; rfl)
  have unrec : ∀ u : String, u ≠ "" → unitMap.lookup (jsToLower u) = none →
      normalizeUnit u = u := by
    intro u h1 h2
    unfold normalizeUnit
    rw [if_neg h1, h2]
  refine ⟨?_, ?_, ?_, ?_, ?_, ?_, ?_, by decide, unrec⟩ <;>
    exact fun u h => h.elim
      (fun h => syn u _ _ (nonempty_of_toLower u _ (by decide) h) h (by decide))
      (fun h => syn u _ _ (nonempty_of_toLower u _ (by decide) h) h (by decide))

/-- C5 (witness): concrete instantiations of the amended statement. -/
theorem C5_witness :
    normalizeUnit "Pounds" = "lb" ∧ normalizeUnit "gallon" = "gallon" :=
  ⟨C5_unit_normalization.2.1 "Pounds" (Or.inr (by decide)),
   C5_unit_normalization.2.2.2.2.2.2.2.2 "gallon" (by decide) (by decide)⟩

/-- The `storeInfo` component of the per-line loop collects exactly the lines
that are classified as noise AND contain store vocabulary. -/
theorem processLines_snd (lines : List String) :
    (processLines lines).2
      = lines.filter (fun line => isNonFoodLine (jsToLower line) && isStoreInfo (jsToLower line)) := by
  induction lines with
  | nil => rfl
  | cons line rest ih =>
    simp only [processLines, List.filter_cons]
    by_cases h1 : isNonFoodLine (jsToLower line) <;>
      by_cases h2 : isStoreInfo (jsToLower line) <;>
        simp [h1, h2, ih]

/-- C3 (counterexample): `"walmart"` contains store vocabulary and is not
classified as noise, yet the pipeline does NOT collect it into `storeInfo`
(store-info collection happens only inside the noise branch). -/
theorem C3_counterexample :
    isStoreInfo "walmart" = true
    ∧ isNonFoodLine "walmart" = false
    ∧ linesOf "walmart" = ["walmart"]
    ∧ (analyzeReceiptText "walmart").storeInfo = [] :=
  ⟨by decide, by decide, by decide, by decide⟩

/-- C3 (amended): a line is collected verbatim into `storeInfo` exactly when
noise classification DID trigger on it and it contains (case-insensitive
substring) a word of the retailer/market vocabulary; lines that are not
noise are never collected. -/
theorem C3_store_info_exact (text : String) :
    (analyzeReceiptText text).storeInfo
      = (linesOf text).filter
          (fun line => isNonFoodLine (jsToLower line) && isStoreInfo (jsToLower line)) :=
  processLines_snd (linesOf text)

/-- The `reduce`-style sum of match confidences equals the list sum. -/
theorem foldl_ratAdd_confidence (l : List IngredientMatch) (a : ℚ) :
    l.foldl (fun sum ing => ratAdd sum ing.confidence) a
      = a + (l.map IngredientMatch.confidence).sum := by
  induction l generalizing a with
  | nil => simp
  | cons x xs ih =>
    rw [List.foldl_cons, ih, ratAdd_eq, List.map_cons, List.sum_cons, add_assoc]

/-- `mkRat 1 10` is one tenth. -/
theorem mkRat_one_ten : (mkRat 1 10 : ℚ) = 1/10 := by
  rw [Rat.mkRat_eq_div]
  norm_num

/-- C6: the overall confidence is the mean of the kept confidences plus 0.1
when the text is long and more than three matches are kept, plus another 0.1
beyond ten matches, clamped to [0,1]; with zero kept matches it is exactly 0,
and a pipeline result with no ingredients always carries confidence 0 (a
valid empty analysis, not an error). -/
theorem C6_overall_confidence (l : List IngredientMatch) (text : String)
    (h : ∀ m ∈ l, 0 ≤ m.confidence) :
    calculateOverallConfidence l text
      = max 0 (min 1 ((l.map IngredientMatch.confidence).sum / (l.length : ℚ)
          + (if 100 < jsLength text ∧ 3 < l.length then (1 : ℚ)/10 else 0)
          + (if 10 < l.length then (1 : ℚ)/10 else 0)))
    ∧ calculateOverallConfidence [] text = 0
    ∧ (∀ t : String, (analyzeReceiptText t).ingredients = [] →
        (analyzeReceiptText t).confidence = 0) := by
  refine ⟨?_, by simp [calculateOverallConfidence], ?_⟩
  · by_cases hl : l.length = 0
    · have hnil : l = [] := List.length_eq_zero.mp hl
      subst hnil
      simp [calculateOverallConfidence]
    · have hsum : 0 ≤ (l.map IngredientMatch.confidence).sum := by
        apply List.sum_nonneg
        intro x hx
        obtain ⟨m, hm, rfl⟩ := List.mem_map.mp hx
        exact h m hm
      have havg : 0 ≤ (l.map IngredientMatch.confidence).sum / (l.length : ℚ) :=
        div_nonneg hsum (by positivity)
      have bound : ∀ x : ℚ, 0 ≤ x → max 0 (min 1 x) = min 1 x := fun x hx =>
        max_eq_right (le_min zero_le_one hx)
      unfold calculateOverallConfidence
      rw [if_neg hl]
      simp only [foldl_ratAdd_confidence, zero_add]
      simp only [ratDiv_eq, ratAdd_eq, mkRat_one_ten]
      split_ifs with h1 h2 <;>
        rw [eq_comm, bound _ (add_nonneg (add_nonneg havg (by norm_num)) (by norm_num))] <;>
        simp
  · intro t ht
    have h2 : sortedIngredientsOf t = [] := ht
    show calculateOverallConfidence (sortedIngredientsOf t) t = 0
    rw [h2]
    simp [calculateOverallConfidence]

/-- C6 (witness): the formula instantiated at a one-element match list. -/
theorem C6_witness :
    calculateOverallConfidence
        [{ name := "spinach", confidence := mkRat 1 2, context := "ctx",
           category := "vegetable" }] "abc"
      = max 0 (min 1
          ((([{ name := "spinach", confidence := mkRat 1 2, context := "ctx",
                category := "vegetable" }] : List IngredientMatch).map
              IngredientMatch.confidence).sum
            / (([{ name := "spinach", confidence := mkRat 1 2, context := "ctx",
                   category := "vegetable" }] : List IngredientMatch).length : ℚ)
          + (if 100 < jsLength "abc" ∧
                3 < ([{ name := "spinach", confidence := mkRat 1 2, context := "ctx",
                        category := "vegetable" }] : List IngredientMatch).length
             then (1 : ℚ)/10 else 0)
          + (if 10 < ([{ name := "spinach", confidence := mkRat 1 2, context := "ctx",
                         category := "vegetable" }] : List IngredientMatch).length
             then (1 : ℚ)/10 else 0))) :=
  (C6_overall_confidence
    [{ name := "spinach", confidence := mkRat 1 2, context := "ctx",
       category := "vegetable" }] "abc" (by decide)).1

/-! ## Deduplication invariants -/

theorem insertMatch_keys (m : IngredientMatch) (acc : List (String × IngredientMatch)) :
    (insertMatch m acc).map Prod.fst
      = if jsToLower m.name ∈ acc.map Prod.fst then acc.map Prod.fst
        else acc.map Prod.fst ++ [jsToLower m.name] := by
  induction acc with
  | nil => simp [insertMatch]
  | cons p rest ih =>
    obtain ⟨k, v⟩ := p
    simp only [insertMatch]
    by_cases hk : k = jsToLower m.name
    · subst hk
      by_cases hc : v.confidence < m.confidence <;> simp [hc]
    · rw [if_neg hk]
      simp only [List.map_cons, ih]
      by_cases hmem : jsToLower m.name ∈ rest.map Prod.fst
      · simp [hmem, List.mem_cons, Ne.symm hk]
      · simp [hmem, List.mem_cons, Ne.symm hk]

theorem insertMatch_nodup (m : IngredientMatch) (acc : List (String × IngredientMatch))
    (h : (acc.map Prod.fst).Nodup) : ((insertMatch m acc).map Prod.fst).Nodup := by
  rw [insertMatch_keys]
  split_ifs with hmem
  · exact h
  · simp [List.nodup_append, h, hmem]

theorem insertMatch_mem (m : IngredientMatch) (acc : List (String × IngredientMatch)) :
    ∀ p ∈ insertMatch m acc, p ∈ acc ∨ p = (jsToLower m.name, m) := by
  induction acc with
  | nil =>
    intro p hp
    simp only [insertMatch, List.mem_singleton] at hp
    exact Or.inr hp
  | cons q rest ih =>
    obtain ⟨k, v⟩ := q
    intro p hp
    simp only [insertMatch] at hp
    by_cases hk : k = jsToLower m.name
    · rw [if_pos hk] at hp
      by_cases hc : v.confidence < m.confidence
      · rw [if_pos hc] at hp
        rcases List.mem_cons.mp hp with h | h
        · exact Or.inr (by rw [h, hk])
        · exact Or.inl (List.mem_cons_of_mem _ h)
      · rw [if_neg hc] at hp
        exact Or.inl hp
    · rw [if_neg hk] at hp
      rcases List.mem_cons.mp hp with h | h
      · exact Or.inl (h ▸ List.mem_cons_self _ _)
      · rcases ih p h with h' | h'
        · exact Or.inl (List.mem_cons_of_mem _ h')
        · exact Or.inr h'

theorem insertMatch_bound (m : IngredientMatch) (acc : List (String × IngredientMatch))
    (hnd : (acc.map Prod.fst).Nodup) :
    ∀ p ∈ insertMatch m acc, p.1 = jsToLower m.name →
      m.confidence ≤ p.2.confidence ∧
      ∀ q ∈ acc, q.1 = jsToLower m.name → q.2.confidence ≤ p.2.confidence := by
  induction acc with
  | nil =>
    intro p hp hkey
    simp only [insertMatch, List.mem_singleton] at hp
    subst hp
    exact ⟨le_refl _, by intro q hq; simp at hq⟩
  | cons q0 rest ih =>
    obtain ⟨k, v⟩ := q0
    intro p hp hkey
    have hk_notin : k ∉ rest.map Prod.fst := (List.nodup_cons.mp hnd).1
    have hnd' : (rest.map Prod.fst).Nodup := (List.nodup_cons.mp hnd).2
    simp only [insertMatch] at hp
    by_cases hk : k = jsToLower m.name
    · rw [if_pos hk] at hp
      have hrest_no : ∀ r ∈ rest, (r : String × IngredientMatch).1 ≠ jsToLower m.name := by
        intro r hr hcontra
        exact hk_notin (by rw [hk, ← hcontra] at *; exact List.mem_map_of_mem Prod.fst hr)
      by_cases hc : v.confidence < m.confidence
      · rw [if_pos hc] at hp
        rcases List.mem_cons.mp hp with h | h
        · refine ⟨by rw [h], ?_⟩
          intro q hq hq1
          rcases List.mem_cons.mp hq with rfl | hq'
          · rw [h]
            exact le_of_lt hc
          · exact absurd hq1 (hrest_no q hq')
        · exact absurd hkey (hrest_no p h)
      · rw [if_neg hc] at hp
        rcases List.mem_cons.mp hp with h | h
        · refine ⟨by rw [h]; exact not_lt.mp hc, ?_⟩
          intro q hq hq1
          rcases List.mem_cons.mp hq with rfl | hq'
          · rw [h]
          · exact absurd hq1 (hrest_no q hq')
        · exact absurd hkey (hrest_no p h)
    · rw [if_neg hk] at hp
      rcases List.mem_cons.mp hp with h | h
      · rw [h] at hkey
        exact absurd hkey hk
      · obtain ⟨h1, h2⟩ := ih hnd' p h hkey
        refine ⟨h1, ?_⟩
        intro q hq hq1
        rcases List.mem_cons.mp hq with rfl | hq'
        · exact absurd hq1 hk
        · exact h2 q hq' hq1

/-- Invariant tying the accumulator of the deduplication fold to the already
processed prefix: keys are distinct, every entry is keyed by its match's
lowercased name, stores a processed match, dominates every processed match of
its key, and every processed match's key is present. -/
def goodAcc (processed : List IngredientMatch) (acc : List (String × IngredientMatch)) : Prop :=
  (acc.map Prod.fst).Nodup ∧
  (∀ p ∈ acc, p.1 = jsToLower p.2.name ∧ p.2 ∈ processed ∧
    ∀ m ∈ processed, jsToLower m.name = p.1 → m.confidence ≤ p.2.confidence) ∧
  (∀ m ∈ processed, jsToLower m.name ∈ acc.map Prod.fst)

theorem goodAcc_insert (processed : List IngredientMatch)
    (acc : List (String × IngredientMatch)) (m : IngredientMatch)
    (h : goodAcc processed acc) : goodAcc (processed ++ [m]) (insertMatch m acc) := by
  obtain ⟨hnd, hent, hcomp⟩ := h
  refine ⟨insertMatch_nodup m acc hnd, ?_, ?_⟩
  · intro p hp
    rcases insertMatch_mem m acc p hp with hmem | heq
    · obtain ⟨e1, e2, e3⟩ := hent p hmem
      refine ⟨e1, List.mem_append_left _ e2, ?_⟩
      intro x hx hx1
      rcases List.mem_append.mp hx with hx' | hx'
      · exact e3 x hx' hx1
      · rw [List.mem_singleton] at hx'
        rw [hx'] at hx1 ⊢
        exact (insertMatch_bound m acc hnd p hp hx1.symm).1
    · subst heq
      refine ⟨rfl, List.mem_append_right _ (List.mem_singleton.mpr rfl), ?_⟩
      intro x hx hx1
      rcases List.mem_append.mp hx with hx' | hx'
      · have hin : jsToLower x.name ∈ acc.map Prod.fst := hcomp x hx'
        obtain ⟨q, hq, hq1⟩ := List.mem_map.mp hin
        obtain ⟨f1, f2, f3⟩ := hent q hq
        have hxq : x.confidence ≤ q.2.confidence := f3 x hx' hq1.symm
        have hqm : q.2.confidence ≤ m.confidence :=
          ((insertMatch_bound m acc hnd (jsToLower m.name, m) hp rfl).2 q hq
            (hq1.trans hx1))
        exact le_trans hxq hqm
      · rw [List.mem_singleton] at hx'
        rw [hx']
  · intro x hx
    rcases List.mem_append.mp hx with hx' | hx'
    · have hin := hcomp x hx'
      rw [insertMatch_keys]
      split_ifs with hm
      · exact hin
      · exact List.mem_append_left _ hin
    · rw [List.mem_singleton] at hx'
      subst hx'
      rw [insertMatch_keys]
      split_ifs with hm
      · exact hm
      · exact List.mem_append_right _ (List.mem_singleton.mpr rfl)

theorem goodAcc_foldl (l : List IngredientMatch) :
    ∀ (processed : List IngredientMatch) (acc : List (String × IngredientMatch)),
      goodAcc processed acc →
      goodAcc (processed ++ l) (l.foldl (fun seen i => insertMatch i seen) acc) := by
  induction l with
  | nil =>
    intro processed acc h
    simpa using h
  | cons m rest ih =>
    intro processed acc h
    have step := goodAcc_insert processed acc m h
    have tail := ih (processed ++ [m]) (insertMatch m acc) step
    rw [List.append_assoc, List.singleton_append] at tail
    simpa [List.foldl_cons] using tail

/-- C7: deduplication leaves at most one match per case-insensitive name, and
the retained match for a name comes from the input and has maximal confidence
among all input matches sharing that name. -/
theorem C7_dedup_invariant (l : List IngredientMatch) :
    ((removeDuplicateIngredients l).Pairwise
        (fun a b => jsToLower a.name ≠ jsToLower b.name))
    ∧ ∀ m ∈ removeDuplicateIngredients l, m ∈ l ∧
        ∀ m' ∈ l, jsToLower m'.name = jsToLower m.name →
          m'.confidence ≤ m.confidence := by
  have h0 : goodAcc [] [] := ⟨by simp, by simp, by simp⟩
  have h := goodAcc_foldl l [] [] h0
  rw [List.nil_append] at h
  obtain ⟨hnd, hent, _⟩ := h
  constructor
  · have hmapeq :
        ((l.foldl (fun seen i => insertMatch i seen) []).map Prod.snd).map
            (fun m => jsToLower m.name)
          = (l.foldl (fun seen i => insertMatch i seen) []).map Prod.fst := by
      rw [List.map_map]
      exact List.map_congr_left fun p hp => ((hent p hp).1).symm
    rw [removeDuplicateIngredients]
    rw [← hmapeq] at hnd
    exact List.pairwise_map.mp hnd
  · intro m hm
    rw [removeDuplicateIngredients] at hm
    obtain ⟨p, hp, hp2⟩ := List.mem_map.mp hm
    obtain ⟨e1, e2, e3⟩ := hent p hp
    subst hp2
    exact ⟨e2, fun m' hm' hkey => e3 m' hm' (hkey.trans e1.symm)⟩

/-- C7 (witness): on two matches sharing the case-insensitive name "spinach",
the retained one dominates the other. -/
theorem C7_witness :
    (⟨"spinach", mkRat 7 10, "b", "vegetable"⟩ : IngredientMatch) ∈
      removeDuplicateIngredients
        [⟨"Spinach", mkRat 1 2, "a", "vegetable"⟩,
         ⟨"spinach", mkRat 7 10, "b", "vegetable"⟩]
    ∧ (mkRat 1 2 : ℚ) ≤ mkRat 7 10 :=
  ⟨by decide,
   ((C7_dedup_invariant
      [⟨"Spinach", mkRat 1 2, "a", "vegetable"⟩,
       ⟨"spinach", mkRat 7 10, "b", "vegetable"⟩]).2
      ⟨"spinach", mkRat 7 10, "b", "vegetable"⟩ (by decide)).2
      ⟨"Spinach", mkRat 1 2, "a", "vegetable"⟩ (by decide) (by decide)⟩

/-- The validation loop reports no violation exactly when every item has a
nonempty trimmed name and positive quantity. -/
theorem collectErrors_eq_nil (idx : Nat) (l : List IngredientItem) :
    collectErrors idx l = [] ↔ ∀ i ∈ l, jsTrim i.name ≠ "" ∧ 0 < i.quantity := by
  induction l generalizing idx with
  | nil => simp [collectErrors]
  | cons x xs ih =>
    simp only [collectErrors]
    constructor
    · intro h
      obtain ⟨h12, h3⟩ := List.append_eq_nil.mp h
      obtain ⟨h1, h2⟩ := List.append_eq_nil.mp h12
      refine List.forall_mem_cons.mpr ⟨⟨?_, ?_⟩, (ih (idx + 1)).mp h3⟩
      · intro hc
        rw [if_pos hc] at h1
        exact List.cons_ne_nil _ _ h1
      · by_contra hq
        rw [if_pos (not_lt.mp hq)] at h2
        exact List.cons_ne_nil _ _ h2
    · intro h
      obtain ⟨⟨hn, hq⟩, hrest⟩ := List.forall_mem_cons.mp h
      rw [if_neg hn, if_neg (not_le.mpr hq), List.nil_append, List.nil_append]
      exact (ih (idx + 1)).mpr hrest

/-- C8: the confirmation save fails (producing no saved output) exactly when
no item is selected, or some selected item has an empty trimmed name or a
non-positive quantity; otherwise the unit-normalized, duplicate-merged
selected list is handed to the save callback. -/
theorem C8_validate_and_save (l : List IngredientItem) :
    ((∃ items, validateAndSave l = SaveResult.saved items) ↔
      (l.filter (fun i => i.isSelected) ≠ [] ∧
        ∀ i ∈ l.filter (fun i => i.isSelected), jsTrim i.name ≠ "" ∧ 0 < i.quantity))
    ∧ (∀ items, validateAndSave l = SaveResult.saved items →
        items = mergeDuplicates ((l.filter (fun i => i.isSelected)).map
          (fun ingredient => { ingredient with unit := normalizeUnit ingredient.unit }))) := by
  simp only [validateAndSave]
  by_cases hsel : (l.filter (fun i => i.isSelected)).length = 0
  · rw [if_pos hsel]
    have hnil := List.length_eq_zero.mp hsel
    refine ⟨⟨fun ⟨items, h⟩ => SaveResult.noConfusion h, fun ⟨h1, _⟩ => absurd hnil h1⟩, ?_⟩
    exact fun items h => SaveResult.noConfusion h
  · rw [if_neg hsel]
    by_cases herr : 0 < (collectErrors 0 (l.filter (fun i => i.isSelected))).length
    · rw [if_pos herr]
      have hne : collectErrors 0 (l.filter (fun i => i.isSelected)) ≠ [] := by
        intro h
        rw [h] at herr
        simp at herr
      refine ⟨⟨fun ⟨items, h⟩ => SaveResult.noConfusion h, ?_⟩, ?_⟩
      · intro ⟨h1, h2⟩
        exact absurd ((collectErrors_eq_nil 0 _).mpr h2) hne
      · exact fun items h => SaveResult.noConfusion h
    · rw [if_neg herr]
      have hnil : collectErrors 0 (l.filter (fun i => i.isSelected)) = [] := by
        cases hh : collectErrors 0 (l.filter (fun i => i.isSelected)) with
        | nil => rfl
        | cons a b =>
          rw [hh] at herr
          simp at herr
      refine ⟨⟨fun _ => ⟨fun hc => hsel (by rw [hc]; rfl),
        (collectErrors_eq_nil 0 _).mp hnil⟩, fun _ => ⟨_, rfl⟩⟩, ?_⟩
      intro items h
      injection h with h'
      exact h'.symm

/-- C8 (witness): a single valid selected item is saved as its own
unit-normalized merge. -/
theorem C8_witness :
    ([{ id := "1", name := "milk", quantity := 1, unit := "gallon",
        isSelected := true, source := IngredientSource.manual, confidence := none }]
      : List IngredientItem)
      = mergeDuplicates
          ((([{ id := "1", name := "milk", quantity := 1, unit := "gallon",
                isSelected := true, source := IngredientSource.manual, confidence := none }]
              : List IngredientItem).filter (fun i => i.isSelected)).map
            (fun ingredient => { ingredient with unit := normalizeUnit ingredient.unit })) :=
  (C8_validate_and_save
    [{ id := "1", name := "milk", quantity := 1, unit := "gallon",
       isSelected := true, source := IngredientSource.manual, confidence := none }]).2
    [{ id := "1", name := "milk", quantity := 1, unit := "gallon",
       isSelected := true, source := IngredientSource.manual, confidence := none }]
    (by decide)

/-! ## Membership lemmas for the two accumulation scans of
`extractIngredients` -/

theorem pushKeyword_mono (lowerText : String) (acc : List String) (w s : String)
    (h : s ∈ acc) : s ∈ pushKeyword lowerText acc w := by
  simp only [pushKeyword]
  split_ifs with h1 h2
  · exact h
  · exact List.mem_append_left _ h
  · exact h

theorem foldl_pushKeyword_mono (lowerText : String) (kws : List String) :
    ∀ (acc : List String) (s : String), s ∈ acc → s ∈ kws.foldl (pushKeyword lowerText) acc := by
  induction kws with
  | nil =>
    intro acc s h
    simpa using h
  | cons w rest ih =>
    intro acc s h
    rw [List.foldl_cons]
    exact ih _ _ (pushKeyword_mono lowerText acc w s h)

theorem foldl_pushKeyword_mem (lowerText : String) (kws : List String) :
    ∀ (acc : List String) (w : String), w ∈ kws →
      jsIncludes lowerText (jsToLower w) = true →
      capitalizeWords w ∈ kws.foldl (pushKeyword lowerText) acc := by
  induction kws with
  | nil =>
    intro acc w h _
    exact absurd h (List.not_mem_nil w)
  | cons k rest ih =>
    intro acc w hw hinc
    rw [List.foldl_cons]
    rcases List.mem_cons.mp hw with rfl | hw'
    · apply foldl_pushKeyword_mono
      simp only [pushKeyword]
      rw [if_pos hinc]
      split_ifs with h2
      · exact h2
      · exact List.mem_append_right _ (List.mem_singleton.mpr rfl)
    · exact ih _ w hw' hinc

theorem pushListItem_mono (acc : List String) (item s : String) (h : s ∈ acc) :
    s ∈ pushListItem acc item := by
  unfold pushListItem
  split_ifs with h1
  · exact h
  · exact List.mem_append_left _ h

theorem foldl_pushListItem_mono (items : List String) :
    ∀ (acc : List String) (s : String), s ∈ acc → s ∈ items.foldl pushListItem acc := by
  induction items with
  | nil =>
    intro acc s h
    simpa using h
  | cons i rest ih =>
    intro acc s h
    rw [List.foldl_cons]
    exact ih _ _ (pushListItem_mono acc i s h)

/-- C9 (counterexample): on the raw text `"Ingredients: Flour, Sugar, Salt"`
the extraction produces SIX entries, not three: the keyword scan contributes
the capitalized "Flour", "Sugar", "Salt" and the explicit-list scan (which
runs over the lowercased text) appends the lowercase duplicates "flour",
"sugar", "salt". -/
theorem C9_counterexample :
    extractIngredients "Ingredients: Flour, Sugar, Salt"
      = ["Flour", "Sugar", "Salt", "flour", "sugar", "salt"]
    ∧ (extractIngredients "Ingredients: Flour, Sugar, Salt").length ≠ 3 :=
  ⟨by decide, by decide⟩

/-- C9 (amended): for any raw text containing (case-insensitively)
"Ingredients: Flour, Sugar, Salt", the extraction output contains matches
named "Flour", "Sugar" and "Salt" — via the keyword scan, which requires
neither a price-free line nor the per-line heuristic (the explicit-list scan
additionally appends lowercase items not already present). -/
theorem C9_explicit_list (text : String)
    (h : jsIncludes (jsToLower text) "ingredients: flour, sugar, salt" = true) :
    "Flour" ∈ extractIngredients text ∧ "Sugar" ∈ extractIngredients text
      ∧ "Salt" ∈ extractIngredients text := by
  have hsub : ∀ w : String,
      containsSub w.data ("ingredients: flour, sugar, salt").data = true →
      jsIncludes (jsToLower text) w = true := by
    intro w hw
    have h1 : w.data <:+: ("ingredients: flour, sugar, salt").data :=
      (containsSub_correct _ _).mp hw
    have h2 : ("ingredients: flour, sugar, salt").data <:+: (jsToLower text).data :=
      (containsSub_correct _ _).mp h
    exact (containsSub_correct _ _).mpr (h1.trans h2)
  have hks : ∀ kw : String, kw ∈ ingredientKeywords →
      jsIncludes (jsToLower text) (jsToLower kw) = true →
      capitalizeWords kw ∈ extractIngredients text := by
    intro kw hkw hinc
    cases hg : ingredientsGroupOf (jsToLower text) with
    | none =>
      simp only [extractIngredients, hg]
      exact foldl_pushKeyword_mem _ _ _ kw hkw hinc
    | some group =>
      simp only [extractIngredients, hg]
      exact foldl_pushListItem_mono _ _ _ (foldl_pushKeyword_mem _ _ _ kw hkw hinc)
  refine ⟨?_, ?_, ?_⟩
  · exact (by decide : capitalizeWords "flour" = "Flour") ▸
      hks "flour" (by decide) (hsub (jsToLower "flour") (by decide))
  · exact (by decide : capitalizeWords "sugar" = "Sugar") ▸
      hks "sugar" (by decide) (hsub (jsToLower "sugar") (by decide))
  · exact (by decide : capitalizeWords "salt" = "Salt") ▸
      hks "salt" (by decide) (hsub (jsToLower "salt") (by decide))

/-- C9 (witness): the amended statement at the raw text
`"Ingredients: Flour, Sugar, Salt"` itself. -/
theorem C9_witness :
    "Flour" ∈ extractIngredients "Ingredients: Flour, Sugar, Salt"
    ∧ "Sugar" ∈ extractIngredients "Ingredients: Flour, Sugar, Salt"
    ∧ "Salt" ∈ extractIngredients "Ingredients: Flour, Sugar, Salt" :=
  C9_explicit_list "Ingredients: Flour, Sugar, Salt" (by decide)

/-- Every item produced by the modal initialization has quantity 1, unit
`ea`, source `detected`, and is selected exactly when its confidence (0 when
absent) reaches the threshold. -/
theorem initialIngredientsAux_mem (threshold : ℚ) (d : List DetectedIngredient) :
    ∀ (index : Nat) (item : IngredientItem),
      item ∈ initialIngredientsAux threshold index d →
      item.quantity = 1 ∧ item.unit = "ea" ∧ item.source = IngredientSource.detected ∧
        (item.isSelected = true ↔ threshold ≤ item.confidence.getD 0) := by
  induction d with
  | nil =>
    intro index item h
    simp [initialIngredientsAux] at h
  | cons x rest ih =>
    intro index item h
    simp only [initialIngredientsAux, List.mem_cons] at h
    rcases h with rfl | h
    · exact ⟨rfl, rfl, rfl, decide_eq_true_iff⟩
    · exact ih (index + 1) item h

/-- C10: initializing the confirmation list from detected ingredients gives
every item quantity 1, unit `ea`, source `detected`, and selection exactly
when the detection confidence (0 when absent) reaches the threshold; the
threshold prop defaults to 0.7. -/
theorem C10_initialization (d : List DetectedIngredient) (threshold : ℚ) (hne : d ≠ []) :
    (∀ item ∈ initialIngredients d threshold,
      item.quantity = 1 ∧ item.unit = "ea" ∧ item.source = IngredientSource.detected ∧
        (item.isSelected = true ↔ threshold ≤ item.confidence.getD 0))
    ∧ defaultConfidenceThreshold = 7/10 := by
  refine ⟨?_, by rw [defaultConfidenceThreshold, Rat.mkRat_eq_div]; norm_num⟩
  intro item h
  exact initialIngredientsAux_mem threshold d 0 item h

/-- Demo item produced by the initialization of one detected ingredient with
confidence 0.8. -/
def demoDetectedItem : IngredientItem :=
  { id := "detected-0", name := "milk", quantity := 1, unit := "ea", isSelected := true,
    source := IngredientSource.detected, confidence := some (mkRat 8 10) }

/-- C10 (witness): one detected ingredient with confidence 0.8 against the
default threshold 0.7. -/
theorem C10_witness :
    demoDetectedItem.quantity = 1
    ∧ demoDetectedItem.unit = "ea"
    ∧ demoDetectedItem.source = IngredientSource.detected
    ∧ (demoDetectedItem.isSelected = true ↔
        mkRat 7 10 ≤ demoDetectedItem.confidence.getD 0) :=
  (C10_initialization [{ name := "milk", confidence := some (mkRat 8 10) }] (mkRat 7 10)
    (by decide)).1 demoDetectedItem (by decide)

/-- C3 (witness): the amended statement at a two-line receipt whose first
line is noise with store vocabulary and whose second is a bare store name. -/
theorem C3_witness :
    (analyzeReceiptText "store hours 9-5\nwalmart").storeInfo
      = (linesOf "store hours 9-5\nwalmart").filter
          (fun line => isNonFoodLine (jsToLower line) && isStoreInfo (jsToLower line)) :=
  C3_store_info_exact "store hours 9-5\nwalmart"

/-- C4 (witness): the mock result at two different wall-clock readings. -/
theorem C4_witness :
    extractTextFromReceiptMock "receipt.jpg" ⟨"1/1/2025", "10:00:00 AM"⟩
      = extractTextFromReceiptMock "receipt.jpg" ⟨"1/2/2025", "11:11:11 PM"⟩ :=
  C4_deterministic_stub "receipt.jpg" ⟨"1/1/2025", "10:00:00 AM"⟩ ⟨"1/2/2025", "11:11:11 PM"⟩
